import Mathlib

/-!
Shallow embedding of the LeNet5 MNIST notebook (`src/chainer/mnist_lenet.ipynb`).

The only locally-authored computation in the repository is the `LeNet5`
chain: two `L.Convolution2D` links, three `L.Linear` links, and a forward
pass `__call__` composing them with `F.tanh` and `F.max_pooling_2d`.
We embed feature maps as functions `Fin C → Fin H → Fin W → ℝ` (channel,
row, column), real-valued as the idealised semantics of the framework's
floating-point tensors, and each Chainer layer as a Lean function whose
index arithmetic mirrors the framework's documented semantics:

* `Convolution2D.apply P` — cross-correlation with square kernel, stride 1
  and zero-padding `P` on every border (Chainer `L.Convolution2D(in, out, k, pad=P)`);
* `max_pooling_2d` — 2×2 max pooling with stride 2; on even input sizes
  (the only sizes used by the notebook) Chainer's `F.max_pooling_2d(h, 2)`
  takes disjoint 2×2 windows and halves each spatial dimension;
* `Linear.apply` — affine map `W x + b`; Chainer's `L.Linear` flattens the
  non-batch axes of its input in C order first, which `flatten` performs.

The training-side configuration of the notebook (iterators, trainer
extensions and their triggers) is embedded further below.
-/

namespace MnistLenet

/-- Zero-padded lookup of a feature map: coordinates `u, v` address the image
padded by `P` zeros on every border, so positions outside the band
`[P, P + H) × [P, P + W)` read as `0`. -/
noncomputable def padLookup (P : ℕ) {C H W : ℕ} (x : Fin C → Fin H → Fin W → ℝ)
    (c : Fin C) (u v : ℕ) : ℝ :=
  if h : P ≤ u ∧ u < P + H ∧ P ≤ v ∧ v < P + W then
    x c ⟨u - P, by omega⟩ ⟨v - P, by omega⟩
  else 0

/-- The image padded with `P` zeros on every border, as a total feature map of
size `(H + 2P) × (W + 2P)`: the explicit "pad the input to 32×32" step of the
spec pipeline. -/
noncomputable def padImage (P : ℕ) {C H W : ℕ} (x : Fin C → Fin H → Fin W → ℝ) :
    Fin C → Fin (H + 2 * P) → Fin (W + 2 * P) → ℝ :=
  fun c i j => padLookup P x c i.val j.val

/-- Parameters of `L.Convolution2D(inC, outC, k)`: a kernel weight tensor of
shape `(outC, inC, k, k)` and a bias vector of shape `(outC)`. -/
structure Convolution2D (inC outC k : ℕ) where
  w : Fin outC → Fin inC → Fin k → Fin k → ℝ
  b : Fin outC → ℝ

/-- Forward computation of `L.Convolution2D` with zero-padding `P` and
stride 1: output pixel `(o, i, j)` is the bias plus the kernel-window dot
product read through `padLookup`.  The spatial output size is
`H + 2P - k + 1` per dimension. -/
noncomputable def Convolution2D.apply {inC outC k : ℕ} (P : ℕ) {H W : ℕ}
    (l : Convolution2D inC outC k) (x : Fin inC → Fin H → Fin W → ℝ) :
    Fin outC → Fin (H + 2 * P - k + 1) → Fin (W + 2 * P - k + 1) → ℝ :=
  fun o i j =>
    l.b o + ∑ c, ∑ a, ∑ d, l.w o c a d * padLookup P x c (i.val + a.val) (j.val + d.val)

/-- Parameters of `L.Linear(inF, outF)`: weight matrix of shape
`(outF, inF)` and bias of shape `(outF)`. -/
structure Linear (inF outF : ℕ) where
  w : Fin outF → Fin inF → ℝ
  b : Fin outF → ℝ

/-- Forward computation of `L.Linear`: the affine map `v ↦ W v + b`. -/
noncomputable def Linear.apply {inF outF : ℕ} (l : Linear inF outF)
    (v : Fin inF → ℝ) : Fin outF → ℝ :=
  fun o => l.b o + ∑ i, l.w o i * v i

/-- `F.max_pooling_2d(·, 2)` on feature maps with even spatial sizes: each
output pixel is the maximum of a disjoint 2×2 window, halving both spatial
dimensions (the notebook only applies it at sizes 28×28 and 10×10, where
Chainer's `cover_all` padding is vacuous). -/
noncomputable def max_pooling_2d {C H W : ℕ} (x : Fin C → Fin (2 * H) → Fin (2 * W) → ℝ) :
    Fin C → Fin H → Fin W → ℝ :=
  fun c i j =>
    max (max (x c ⟨2 * i.val, by have := i.isLt; omega⟩ ⟨2 * j.val, by have := j.isLt; omega⟩)
             (x c ⟨2 * i.val, by have := i.isLt; omega⟩ ⟨2 * j.val + 1, by have := j.isLt; omega⟩))
        (max (x c ⟨2 * i.val + 1, by have := i.isLt; omega⟩ ⟨2 * j.val, by have := j.isLt; omega⟩)
             (x c ⟨2 * i.val + 1, by have := i.isLt; omega⟩ ⟨2 * j.val + 1, by have := j.isLt; omega⟩))

/-- `F.tanh` applied elementwise to a feature map. -/
noncomputable def tanhMap {C H W : ℕ} (x : Fin C → Fin H → Fin W → ℝ) :
    Fin C → Fin H → Fin W → ℝ :=
  fun c i j => Real.tanh (x c i j)

/-- `F.tanh` applied elementwise to a vector. -/
noncomputable def tanhVec {n : ℕ} (v : Fin n → ℝ) : Fin n → ℝ :=
  fun i => Real.tanh (v i)

/-- C-order flattening of a `(C, H, W)` feature map into a vector of length
`C·H·W`, as performed implicitly by `L.Linear` on a 4-dimensional input:
entry `c·(H·W) + i·W + j` is pixel `(c, i, j)`. -/
noncomputable def flatten {C H W : ℕ} (x : Fin C → Fin H → Fin W → ℝ) :
    Fin (C * H * W) → ℝ :=
  fun n =>
    have hHW : 0 < H * W := by
      rcases Nat.eq_zero_or_pos (H * W) with h | h
      · have h0 : C * H * W = 0 := by rw [Nat.mul_assoc, h, Nat.mul_zero]
        have := n.isLt
        omega
      · exact h
    have hW : 0 < W := by
      rcases Nat.eq_zero_or_pos W with h | h
      · rw [h, Nat.mul_zero] at hHW; omega
      · exact h
    x ⟨n.val / (H * W),
        Nat.div_lt_of_lt_mul (by rw [Nat.mul_comm (H * W) C, ← Nat.mul_assoc]; exact n.isLt)⟩
      ⟨n.val % (H * W) / W,
        Nat.div_lt_of_lt_mul (by rw [Nat.mul_comm W H]; exact Nat.mod_lt _ hHW)⟩
      ⟨n.val % W, Nat.mod_lt _ hW⟩

/-- The `LeNet5` chain of the notebook: the five parameterised links
registered in `__init__` — `conv1 = L.Convolution2D(1, 6, 5, pad=2)`,
`conv2 = L.Convolution2D(6, 16, 5)`, `fc1 = L.Linear(400, 120)`,
`fc2 = L.Linear(120, 84)`, `fc3 = L.Linear(84, 10)` — together with the
boolean attribute `self.train` set by the constructor. -/
structure LeNet5 where
  conv1 : Convolution2D 1 6 5
  conv2 : Convolution2D 6 16 5
  fc1 : Linear 400 120
  fc2 : Linear 120 84
  fc3 : Linear 84 10
  train : Bool

/-- First line of `__call__`: `h = F.tanh(self.conv1(x))`; `conv1` carries
`pad=2`, so a 28×28 input yields a 28×28 map with 6 channels. -/
noncomputable def LeNet5.h1 (net : LeNet5) (x : Fin 1 → Fin 28 → Fin 28 → ℝ) :
    Fin 6 → Fin 28 → Fin 28 → ℝ :=
  tanhMap (net.conv1.apply 2 x)

/-- Second line of `__call__`: `h = F.max_pooling_2d(h, 2)` — 28×28 → 14×14. -/
noncomputable def LeNet5.h2 (net : LeNet5) (x : Fin 1 → Fin 28 → Fin 28 → ℝ) :
    Fin 6 → Fin 14 → Fin 14 → ℝ :=
  max_pooling_2d (net.h1 x)

/-- Third line of `__call__`: `h = F.tanh(self.conv2(h))` — 14×14 → 10×10,
16 channels. -/
noncomputable def LeNet5.h3 (net : LeNet5) (x : Fin 1 → Fin 28 → Fin 28 → ℝ) :
    Fin 16 → Fin 10 → Fin 10 → ℝ :=
  tanhMap (net.conv2.apply 0 (net.h2 x))

/-- Fourth line of `__call__`: `h = F.max_pooling_2d(h, 2)` — 10×10 → 5×5. -/
noncomputable def LeNet5.h4 (net : LeNet5) (x : Fin 1 → Fin 28 → Fin 28 → ℝ) :
    Fin 16 → Fin 5 → Fin 5 → ℝ :=
  max_pooling_2d (net.h3 x)

/-- Fifth line of `__call__`: `h = F.tanh(self.fc1(h))`; `L.Linear` flattens
the `(16, 5, 5)` map to a 400-vector first. -/
noncomputable def LeNet5.h5 (net : LeNet5) (x : Fin 1 → Fin 28 → Fin 28 → ℝ) :
    Fin 120 → ℝ :=
  tanhVec (net.fc1.apply (flatten (net.h4 x)))

/-- Sixth line of `__call__`: `h = F.tanh(self.fc2(h))`. This vector is the
input handed to the final linear layer `fc3`. -/
noncomputable def LeNet5.h6 (net : LeNet5) (x : Fin 1 → Fin 28 → Fin 28 → ℝ) :
    Fin 84 → ℝ :=
  tanhVec (net.fc2.apply (net.h5 x))

/-- `LeNet5.__call__` on one sample: the composition of the seven lines of
the forward pass, returning the 10 class logits `self.fc3(h)`. -/
noncomputable def LeNet5.call (net : LeNet5) (x : Fin 1 → Fin 28 → Fin 28 → ℝ) :
    Fin 10 → ℝ :=
  net.fc3.apply (net.h6 x)

/-- `LeNet5.__call__` on a batch of `n` samples: Chainer applies the forward
pass to every sample of the batch independently. -/
noncomputable def LeNet5.callBatch (net : LeNet5) {n : ℕ}
    (xs : Fin n → Fin 1 → Fin 28 → Fin 28 → ℝ) : Fin n → Fin 10 → ℝ :=
  fun bi => net.call (xs bi)

/-- Modelled from the spec: the spec's pipeline "pad input to 32×32 →
conv(1→6, kernel 5) → tanh → max-pool(2) → conv(6→16, kernel 5) → tanh →
max-pool(2) → flatten → linear(400→120) → tanh → linear(120→84) → tanh →
linear(84→10)", with the padding performed as an explicit first step and
both convolutions applied without padding. -/
noncomputable def LeNet5.specCall (net : LeNet5) (x : Fin 1 → Fin 28 → Fin 28 → ℝ) :
    Fin 10 → ℝ :=
  let xp := padImage 2 x
  let s1 := tanhMap (net.conv1.apply 0 xp)
  let s2 : Fin 6 → Fin 14 → Fin 14 → ℝ := max_pooling_2d s1
  let s3 := tanhMap (net.conv2.apply 0 s2)
  let s4 : Fin 16 → Fin 5 → Fin 5 → ℝ := max_pooling_2d s3
  let s5 : Fin 120 → ℝ := tanhVec (net.fc1.apply (flatten s4))
  let s6 : Fin 84 → ℝ := tanhVec (net.fc2.apply s5)
  net.fc3.apply s6

/-- Reading a coordinate of the zero-padded image through an unpadded
(`P = 0`) lookup coincides with the padded (`P`) lookup on the original
image, at every coordinate. -/
theorem padLookup_zero_padImage (P : ℕ) {C H W : ℕ}
    (x : Fin C → Fin H → Fin W → ℝ) (c : Fin C) (u v : ℕ) :
    padLookup 0 (padImage P x) c u v = padLookup P x c u v := by
  unfold padLookup
  by_cases h0 : 0 ≤ u ∧ u < 0 + (H + 2 * P) ∧ 0 ≤ v ∧ v < 0 + (W + 2 * P)
  · rw [dif_pos h0]
    show padLookup P x c (u - 0) (v - 0) = _
    rw [Nat.sub_zero, Nat.sub_zero]
    rfl
  · rw [dif_neg h0, dif_neg (by omega)]

/-- Convolving with built-in zero-padding `P` equals first padding the image
explicitly and then convolving without padding: this is the fusion the
notebook performs by giving `conv1` the argument `pad=2`. -/
theorem Convolution2D.apply_zero_padImage {inC outC k : ℕ} (P : ℕ) {H W : ℕ}
    (l : Convolution2D inC outC k) (x : Fin inC → Fin H → Fin W → ℝ) :
    l.apply 0 (padImage P x) = l.apply P x := by
  funext o i j
  unfold Convolution2D.apply
  congr 1
  refine Finset.sum_congr rfl fun c _ => ?_
  refine Finset.sum_congr rfl fun a _ => ?_
  refine Finset.sum_congr rfl fun d _ => ?_
  rw [padLookup_zero_padImage]

/-- C1: for every input batch of shape `(batch, 1, 28, 28)` — equivalently,
samplewise — the forward pass `LeNet5.__call__` computes exactly the spec's
pipeline "pad to 32×32, conv(1→6,5), tanh, max-pool(2), conv(6→16,5), tanh,
max-pool(2), flatten, linear(400→120), tanh, linear(120→84), tanh,
linear(84→10)": fusing the padding into `conv1` via `pad=2` is equivalent to
padding first and then convolving without padding. -/
theorem call_matches_spec_pipeline (net : LeNet5) (x : Fin 1 → Fin 28 → Fin 28 → ℝ) :
    net.call x = net.specCall x := by
  simp only [LeNet5.call, LeNet5.specCall, LeNet5.h6, LeNet5.h5, LeNet5.h4, LeNet5.h3,
    LeNet5.h2, LeNet5.h1]
  rw [Convolution2D.apply_zero_padImage]

/-- Hyperbolic tangent takes values in the closed interval `[-1, 1]`. -/
theorem tanh_bounds (y : ℝ) : -1 ≤ Real.tanh y ∧ Real.tanh y ≤ 1 := by
  have h : ∀ z : ℝ, Real.tanh z < 1 := fun z => by
    rw [Real.tanh_eq_sinh_div_cosh]
    exact (div_lt_one (Real.cosh_pos z)).mpr (Real.sinh_lt_cosh z)
  constructor
  · have h2 := h (-y)
    rw [Real.tanh_neg] at h2
    linarith
  · exact (h y).le

/-- 2×2 max pooling preserves any bounds satisfied by all entries of its
input feature map. -/
theorem max_pooling_2d_bounds {C H W : ℕ} {lo hi : ℝ}
    (x : Fin C → Fin (2 * H) → Fin (2 * W) → ℝ)
    (hx : ∀ c i j, lo ≤ x c i j ∧ x c i j ≤ hi) (c : Fin C) (i : Fin H) (j : Fin W) :
    lo ≤ max_pooling_2d x c i j ∧ max_pooling_2d x c i j ≤ hi := by
  unfold max_pooling_2d
  refine ⟨le_max_of_le_left (le_max_of_le_left (hx _ _ _).1), ?_⟩
  exact max_le (max_le (hx _ _ _).2 (hx _ _ _).2) (max_le (hx _ _ _).2 (hx _ _ _).2)

/-- C10: in the forward pass, every intermediate activation produced by a
`tanh` (`h1`, `h3`, `h5`, `h6`) and every subsequent max-pool over such
activations (`h2`, `h4`) lies in the closed interval `[-1, 1]`; in
particular every component of `h6`, the input to the final linear layer
`fc3`, lies in `[-1, 1]`, for every input. -/
theorem tanh_activations_in_Icc (net : LeNet5) (x : Fin 1 → Fin 28 → Fin 28 → ℝ) :
    (∀ c i j, -1 ≤ net.h1 x c i j ∧ net.h1 x c i j ≤ 1) ∧
    (∀ c i j, -1 ≤ net.h2 x c i j ∧ net.h2 x c i j ≤ 1) ∧
    (∀ c i j, -1 ≤ net.h3 x c i j ∧ net.h3 x c i j ≤ 1) ∧
    (∀ c i j, -1 ≤ net.h4 x c i j ∧ net.h4 x c i j ≤ 1) ∧
    (∀ i, -1 ≤ net.h5 x i ∧ net.h5 x i ≤ 1) ∧
    (∀ i, -1 ≤ net.h6 x i ∧ net.h6 x i ≤ 1) := by
  refine ⟨fun c i j => tanh_bounds _,
    fun c i j => max_pooling_2d_bounds _ (fun c i j => tanh_bounds _) c i j,
    fun c i j => tanh_bounds _,
    fun c i j => max_pooling_2d_bounds _ (fun c i j => tanh_bounds _) c i j,
    fun i => tanh_bounds _,
    fun i => tanh_bounds _⟩

/-- C4: the forward pass `LeNet5.__call__` is a single fixed straight-line
composition of the eleven layer applications (conv1 with fused pad 2, tanh,
pool, conv2, tanh, pool, flatten, fc1, tanh, fc2, tanh, fc3), definitionally
equal to that branch-free chain of function compositions; as a total
function on correctly shaped inputs it has no error branch — shape
agreement is enforced by the (dependent) types standing in for the
framework's tensor-shape checks. -/
theorem call_is_straight_line_composition (net : LeNet5) :
    net.call =
      net.fc3.apply ∘ tanhVec ∘ net.fc2.apply ∘ tanhVec ∘ net.fc1.apply ∘
      (flatten : (Fin 16 → Fin 5 → Fin 5 → ℝ) → Fin (16 * 5 * 5) → ℝ) ∘
      (max_pooling_2d : (Fin 16 → Fin (2 * 5) → Fin (2 * 5) → ℝ) → _) ∘
      tanhMap ∘ net.conv2.apply 0 ∘
      (max_pooling_2d : (Fin 6 → Fin (2 * 14) → Fin (2 * 14) → ℝ) → _) ∘
      tanhMap ∘ net.conv1.apply 2 := by
  funext x
  rfl

/-- The constructor line `self.train = True` of `__init__`, and more
generally any assignment to the `train` attribute, as a function on the
chain object: only the `train` field changes. -/
def LeNet5.setTrain (net : LeNet5) (b : Bool) : LeNet5 :=
  ⟨net.conv1, net.conv2, net.fc1, net.fc2, net.fc3, b⟩

/-- `__call__` viewed as a state transformer on the chain object: the method
body reads the parameter links and assigns no attribute, so the chain it
leaves behind is the chain it was given, paired with the computed logits. -/
noncomputable def LeNet5.callOnChain (net : LeNet5) (x : Fin 1 → Fin 28 → Fin 28 → ℝ) :
    LeNet5 × (Fin 10 → ℝ) :=
  (net, net.call x)

/-- C5: evaluating the forward pass on any input leaves every parameter
tensor of the model — the two convolution kernels with their biases and the
three linear layers with their biases — unchanged; only an optimizer update
step (not modelled here) mutates them. -/
theorem call_preserves_parameters (net : LeNet5) (x : Fin 1 → Fin 28 → Fin 28 → ℝ) :
    (net.callOnChain x).1.conv1 = net.conv1 ∧
    (net.callOnChain x).1.conv2 = net.conv2 ∧
    (net.callOnChain x).1.fc1 = net.fc1 ∧
    (net.callOnChain x).1.fc2 = net.fc2 ∧
    (net.callOnChain x).1.fc3 = net.fc3 :=
  ⟨rfl, rfl, rfl, rfl, rfl⟩

/-- C7: with the model parameters fixed, the forward pass is deterministic —
it is a pure function of the chain and the input batch (it reads no random
state; the only non-layer attribute, `train`, is never read), so two
evaluations on the same input batch produce identical outputs. -/
theorem callBatch_deterministic (net : LeNet5) {n : ℕ}
    (xs : Fin n → Fin 1 → Fin 28 → Fin 28 → ℝ) :
    net.callBatch xs = net.callBatch xs :=
  rfl

/-- C9: the output of `LeNet5.__call__` does not depend on the boolean
attribute `self.train` set in the constructor: the forward pass produces
the same output whatever value the flag holds, since no line of `__call__`
reads it. -/
theorem call_independent_of_train_flag (net : LeNet5)
    (x : Fin 1 → Fin 28 → Fin 28 → ℝ) (b₁ b₂ : Bool) :
    (net.setTrain b₁).call x = (net.setTrain b₂).call x :=
  rfl

/-- Shape inference for `L.Convolution2D(inC, outC, k, pad=p)` (stride 1) on
an `(n, c, h, w)` tensor: the channel count must match and the padded input
must contain the kernel; each spatial dimension becomes `d + 2p - k + 1`. -/
def convShape (inC outC k p : ℕ) : List ℕ → Option (List ℕ)
  | [n, c, h, w] =>
    if c = inC ∧ k ≤ h + 2 * p ∧ k ≤ w + 2 * p then
      some [n, outC, h + 2 * p - k + 1, w + 2 * p - k + 1]
    else none
  | _ => none

/-- Shape inference for `F.max_pooling_2d(·, 2)` (Chainer default stride 2
and `cover_all`): each spatial dimension `d` becomes `⌈(d − 2)/2⌉ + 1`,
written with natural ceiling division. -/
def poolShape : List ℕ → Option (List ℕ)
  | [n, c, h, w] => some [n, c, (h - 2 + 1) / 2 + 1, (w - 2 + 1) / 2 + 1]
  | _ => none

/-- Shape inference for `F.tanh`: elementwise, shape preserved. -/
def tanhShape (s : List ℕ) : Option (List ℕ) :=
  some s

/-- Shape inference for `L.Linear(inF, outF)`: the non-batch axes are
flattened and their product must equal `inF`; the result is `(n, outF)`. -/
def linearShape (inF outF : ℕ) : List ℕ → Option (List ℕ)
  | [] => none
  | n :: rest => if rest ≠ [] ∧ rest.prod = inF then some [n, outF] else none

/-- Shape of the output of `LeNet5.__call__` as a function of the input
shape, obtained by chaining the shape rules of the layers exactly in the
order of the forward pass. -/
def lenet5Shape (s : List ℕ) : Option (List ℕ) :=
  (((((((((((convShape 1 6 5 2 s).bind tanhShape).bind
    poolShape).bind
    (convShape 6 16 5 0)).bind tanhShape).bind
    poolShape).bind
    (linearShape 400 120)).bind tanhShape).bind
    (linearShape 120 84)).bind tanhShape).bind
    (linearShape 84 10))

/-- C2: for every batch size `n`, an input of shape `(n, 1, 28, 28)` is
accepted by every layer of the forward pass and the resulting logits have
shape `(n, 10)`; the typed forward pass `LeNet5.callBatch` realises this
shape by construction. -/
theorem lenet5Shape_batch (n : ℕ) :
    lenet5Shape [n, 1, 28, 28] = some [n, 10] :=
  rfl

/-- Names of the seven extensions registered on the trainer by the
notebook, in registration order. -/
inductive ExtensionName
  | evaluator
  | dumpGraph
  | snapshot
  | logReport
  | plotLoss
  | plotAccuracy
  | printReport
deriving DecidableEq

/-- An extension as registered on the trainer: its name and the interval, in
epochs, of its `(interval, 'epoch')` trigger. -/
structure ExtensionEntry where
  name : ExtensionName
  interval : ℕ
deriving DecidableEq

/-- The epoch count of the run: `epoch = 10`. -/
def epoch : ℕ := 10

/-- The snapshot extension as registered:
`trainer.extend(E.snapshot(), trigger=(epoch, 'epoch'))` — its trigger
interval is `epoch = 10`, not the default 1. -/
def snapshotEntry : ExtensionEntry :=
  ⟨.snapshot, epoch⟩

/-- The seven `trainer.extend(...)` calls of the notebook in order; every
extension other than the snapshot is registered without an explicit
trigger and therefore fires with the framework default `(1, 'epoch')`. -/
def trainerExtensions : List ExtensionEntry :=
  [⟨.evaluator, 1⟩, ⟨.dumpGraph, 1⟩, snapshotEntry, ⟨.logReport, 1⟩,
   ⟨.plotLoss, 1⟩, ⟨.plotAccuracy, 1⟩, ⟨.printReport, 1⟩]

/-- Chainer `IntervalTrigger (k, 'epoch')` semantics for whole epochs: the
extension fires at the boundary of epoch `e ≥ 1` exactly when `e` is a
multiple of `k`. -/
def firesAt (ent : ExtensionEntry) (e : ℕ) : Bool :=
  decide (0 < e) && decide (e % ent.interval = 0)

/-- C3 fails as stated: the snapshot extension is registered with trigger
`(epoch, 'epoch') = (10, 'epoch')`, so at the first epoch boundary of the
10-epoch run — a concrete epoch boundary of the run — no state snapshot is
taken. -/
theorem snapshot_skips_first_epoch_boundary :
    snapshotEntry ∈ trainerExtensions ∧ 1 ≤ epoch ∧ firesAt snapshotEntry 1 = false := by
  decide

/-- C3 (amended): at every epoch boundary of the 10-epoch run, the trainer
dispatches every registered extension other than the snapshot — evaluation
on the test split, graph dump, metric logging, curve plotting, console
report — while the state snapshot fires exactly at the final (10th) epoch
boundary, its trigger being `(epoch, 'epoch')` with `epoch = 10`. -/
theorem extensions_dispatch_epochwise (e : ℕ) (h1 : 1 ≤ e) (h2 : e ≤ epoch) :
    (∀ ent ∈ trainerExtensions, ent.name ≠ ExtensionName.snapshot → firesAt ent e = true) ∧
    (firesAt snapshotEntry e = true ↔ e = epoch) := by
  constructor
  · intro ent hmem hname
    fin_cases hmem <;>
      simp_all [firesAt, snapshotEntry, Nat.mod_one] <;> omega
  · simp only [firesAt, snapshotEntry, epoch, Bool.and_eq_true, decide_eq_true_eq] at h2 ⊢
    omega

/-- Concrete instantiation of `extensions_dispatch_epochwise` at the epoch-7
boundary: all non-snapshot extensions fire there and the snapshot does not. -/
theorem extensions_dispatch_epochwise_witness :
    (∀ ent ∈ trainerExtensions, ent.name ≠ ExtensionName.snapshot → firesAt ent 7 = true) ∧
    (firesAt snapshotEntry 7 = true ↔ 7 = epoch) :=
  extensions_dispatch_epochwise 7 (by decide) (by decide)

/-- Configuration of a `chainer.iterators.SerialIterator`: the batch size
and the `repeat` and `shuffle` keyword arguments (both default `True`). -/
structure SerialIterator where
  batchsize : ℕ
  repeats : Bool
  shuffle : Bool
deriving DecidableEq

/-- `train_iter = SerialIterator(train, batchsize)` with `batchsize = 128`:
repeat and shuffle keep their `True` defaults. -/
def train_iter : SerialIterator :=
  ⟨128, true, true⟩

/-- `test_iter = SerialIterator(test, batchsize, repeat=False, shuffle=False)`. -/
def test_iter : SerialIterator :=
  ⟨128, false, false⟩

/-- Consecutive batches of size `B` cut from a list, the last batch possibly
shorter: the order in which a non-repeating, non-shuffling `SerialIterator`
serves a dataset. -/
def toBatches (B : ℕ) (l : List ℕ) : List (List ℕ) :=
  if hbl : B = 0 ∨ l = [] then [] else l.take B :: toBatches B (l.drop B)
termination_by l.length
decreasing_by
  rcases l with _ | ⟨a, l⟩
  · simp at hbl
  · simp only [List.length_drop, List.length_cons]
    omega

/-- Concatenating the batches cut by `toBatches` recovers the list: batching
preserves the traversal order and drops and repeats nothing. -/
theorem toBatches_flatten (B : ℕ) (hB : 0 < B) (l : List ℕ) :
    (toBatches B l).flatten = l := by
  induction l using toBatches.induct B with
  | case1 l h =>
    rcases h with h | h
    · omega
    · subst h
      rw [toBatches]
      simp
  | case2 l h ih =>
    rw [toBatches, dif_neg h]
    simp [ih]

/-- Dataset positions served by the repeating training iterator at iteration
`t` over a dataset of `N` samples: one full batch of `batchsize` consecutive
positions, wrapping around the epoch boundary (Chainer's reshuffling each
epoch permutes which sample occupies a position, never how many positions a
batch has). -/
def trainBatchPositions (N t : ℕ) : List ℕ :=
  (List.range train_iter.batchsize).map fun i => (t * train_iter.batchsize + i) % N

/-- The batches served by `test_iter` over a test split of `N` samples, in
order: consecutive chunks of the identity order, since the iterator was
created with `repeat=False, shuffle=False`. -/
def testBatches (N : ℕ) : List (List ℕ) :=
  toBatches test_iter.batchsize (List.range N)

/-- C6: the training iterator is configured with batch size 128 and every
training batch it serves has exactly 128 elements, while the evaluation
iterator is configured without repetition and without shuffling and
traverses the test split in its original order, each sample exactly once:
its batches concatenate back to the identity traversal `0, …, N−1`. -/
theorem iterator_batching (N t : ℕ) :
    train_iter.batchsize = 128 ∧
    (trainBatchPositions N t).length = 128 ∧
    test_iter.repeats = false ∧
    test_iter.shuffle = false ∧
    (testBatches N).flatten = List.range N := by
  refine ⟨rfl, ?_, rfl, rfl, toBatches_flatten _ (by decide) _⟩
  simp [trainBatchPositions, train_iter]

end MnistLenet
